import Mathlib

/-!
Verification development for the pg-mcp repository (week-5 project).

The central artifact under verification is
`src/pg_mcp/services/sql_validator.py` (class `SQLValidator`), together with
the host tool `query` and the `lifespan` startup logic of
`src/pg_mcp/server.py`.

Modelling conventions:
* Python strings are Lean `String`; `str.lower` / `str.upper` are the
  ASCII-only maps `lowerStr` / `upperStr` below (the deny lists and SQL
  keywords involved are ASCII).
* The sqlglot AST is abstracted to the data the validator inspects: the
  statement's node class (`Stmt` constructors mirror the `sqlglot.exp`
  classes the validator names), the command text of an `exp.Command`, and
  the list of nodes produced by `statement.walk()` (`SqlNode`).  An
  `exp.Command` node's only child is a `Literal` holding the rest of the
  raw text, so its walk yields no `Func`/`Table`/`Column` nodes.
* sqlglot itself is a third-party library that is not part of the
  repository; theorems about the validator quantify over a `Parser`
  oracle whose one assumed property (whitespace-only input yields no
  statement) is a fact of any SQL parser.  For the claims that need a
  concrete parse/render pair, a small executable model of sqlglot's
  behaviour on the fragment `SELECT * FROM t1, t2, ...` is built and its
  parse/print round trip is proved, not assumed.
* Python exceptions are `Except`: `SQLParseError` and
  `SecurityViolationError` are the two constructors of `VError`.
-/

/-! ### ASCII string utilities (models of Python `str` methods) -/

/-- Model of Python `str.lower` for ASCII text (`Char.toLower` only maps
latin capitals). -/
def lowerStr (s : String) : String := String.mk (s.data.map Char.toLower)

/-- Model of Python `str.upper` for ASCII text. -/
def upperStr (s : String) : String := String.mk (s.data.map Char.toUpper)

/-- Characters removed by Python `str.strip()`. -/
def isPyWs (c : Char) : Bool :=
  c = ' ' || c = '\t' || c = '\n' || c = '\r' || c = '\x0b' || c = '\x0c'

/-- Model of Python `not sql or not sql.strip()`: the string is empty or
entirely whitespace. -/
def wsOnly (s : String) : Bool := s.data.all isPyWs

/-- `startsWithChars pat l`: the char list `l` has `pat` as a prefix. -/
def startsWithChars : List Char → List Char → Bool
  | [], _ => true
  | _ :: _, [] => false
  | p :: ps, c :: cs => p = c && startsWithChars ps cs

/-- Model of Python `pat in s` (substring containment) on char lists. -/
def containsSub (pat : List Char) : List Char → Bool
  | [] => startsWithChars pat []
  | c :: cs => startsWithChars pat (c :: cs) || containsSub pat cs

/-- Model of Python `pat in s` on strings. -/
def containsSubstr (s pat : String) : Bool := containsSub pat.data s.data

/-! ### Abstraction of the sqlglot AST

`SqlNode` is the shape of a node as seen by the validator's walks:
it only ever asks whether a node is an `exp.Func`, `exp.Table` or
`exp.Column` and reads `node.name` (and `column.table`, `""` when the
column is unqualified).  Every other node is `literal` or `other`. -/

inductive SqlNode where
  | func (name : String)
  | table (name : String)
  | column (name : String) (tbl : String)
  | literal (text : String)
  | other
deriving DecidableEq, Repr

/-- The statement classes distinguished by
`SQLValidator._check_statement_type` (mirroring `sqlglot.exp` class
names).  `command` carries `statement.this` (the command word) and the
raw remainder held by its `Literal` child; every other constructor
carries the list of nodes its `walk()` yields. -/
inductive Stmt where
  | command (this : String) (body : String)
  | select (nodes : List SqlNode)
  | union (nodes : List SqlNode)
  | subquery (nodes : List SqlNode)
  | withStmt (nodes : List SqlNode)
  | insert (nodes : List SqlNode)
  | update (nodes : List SqlNode)
  | delete (nodes : List SqlNode)
  | create (nodes : List SqlNode)
  | drop (nodes : List SqlNode)
  | alter (nodes : List SqlNode)
  | grant (nodes : List SqlNode)
  | revoke (nodes : List SqlNode)
  | truncateTable (nodes : List SqlNode)
  | copy (nodes : List SqlNode)
  | otherStmt (key : String) (nodes : List SqlNode)
deriving DecidableEq, Repr

/-- `statement.key`: sqlglot's lower-cased class name. -/
def Stmt.key : Stmt → String
  | .command _ _ => "command"
  | .select _ => "select"
  | .union _ => "union"
  | .subquery _ => "subquery"
  | .withStmt _ => "with"
  | .insert _ => "insert"
  | .update _ => "update"
  | .delete _ => "delete"
  | .create _ => "create"
  | .drop _ => "drop"
  | .alter _ => "alter"
  | .grant _ => "grant"
  | .revoke _ => "revoke"
  | .truncateTable _ => "truncatetable"
  | .copy _ => "copy"
  | .otherStmt k _ => k

/-- `statement.walk()` as the validator consumes it.  An `exp.Command`
keeps the rest of the raw SQL in a single `Literal` child, so its walk
contains no function, table or column nodes. -/
def Stmt.walk : Stmt → List SqlNode
  | .command _ body => [.literal body]
  | .select ns | .union ns | .subquery ns | .withStmt ns
  | .insert ns | .update ns | .delete ns | .create ns | .drop ns
  | .alter ns | .grant ns | .revoke ns | .truncateTable ns | .copy ns => ns
  | .otherStmt _ ns => ns

/-- `isinstance(statement, forbidden_types)` for the tuple at
`sql_validator.py:169-178`. -/
def Stmt.isForbiddenType : Stmt → Bool
  | .insert _ | .update _ | .delete _ | .create _
  | .drop _ | .alter _ | .grant _ | .revoke _ => true
  | _ => false

/-- `isinstance(statement, allowed_types)` for the tuple at
`sql_validator.py:164`. -/
def Stmt.isAllowedType : Stmt → Bool
  | .select _ | .union _ | .subquery _ => true
  | _ => false

def Stmt.isSelect : Stmt → Bool
  | .select _ => true
  | _ => false

def Stmt.isUnion : Stmt → Bool
  | .union _ => true
  | _ => false

def Stmt.isWith : Stmt → Bool
  | .withStmt _ => true
  | _ => false

/-! ### Validator configuration -/

/-- `ExplainPolicy` enum.  Modelled from the spec: the settings module is
not under `src/`; the spec fixes the three members
`DISABLED, EXPLAIN_ONLY, EXPLAIN_ANALYZE`. -/
inductive ExplainPolicy where
  | disabled
  | explainOnly
  | explainAnalyze
deriving DecidableEq, Repr

/-- The slice of `SecurityConfig` the validator reads
(`config.blocked_functions`). -/
structure SecurityConfig where
  blocked_functions : List String
deriving Repr

/-- Errors raised by the validator: `SQLParseError` and
`SecurityViolationError` from `pg_mcp.models.errors`. -/
inductive VError where
  | parse (msg : String)
  | security (msg : String)
deriving DecidableEq, Repr

/-- `str(e)` for a validator error. -/
def VError.msg : VError → String
  | .parse m => m
  | .security m => m

/-- State built by `SQLValidator.__init__` (`sql_validator.py:23-44`):
the three deny lists are lower-cased; membership is the only set
operation used, so Python sets are lists with `contains`. -/
structure SQLValidator where
  blocked_tables : List String
  blocked_columns : List String
  blocked_functions : List String
  explain_policy : ExplainPolicy
deriving Repr

/-- `SQLValidator.__init__`. -/
def mkSQLValidator (config : SecurityConfig)
    (blocked_tables blocked_columns : List String)
    (explain_policy : ExplainPolicy) : SQLValidator where
  blocked_tables := blocked_tables.map lowerStr
  blocked_columns := blocked_columns.map lowerStr
  blocked_functions := config.blocked_functions.map lowerStr
  explain_policy := explain_policy

/-! ### The validator checks (`sql_validator.py:103-233`) -/

/-- `SQLValidator._check_statement_type` (`sql_validator.py:103-192`),
branch for branch.  The `exp.With` case falls through (`pass`) into the
forbidden/allowed checks exactly as in the source. -/
def check_statement_type (v : SQLValidator) (statement : Stmt) (sql : String) :
    Except VError Unit :=
  match statement with
  | .command this _ =>
    let cmd_name := upperStr this
    if cmd_name = "EXPLAIN" then
      if v.explain_policy = .disabled then
        .error (.security "EXPLAIN statements are not allowed")
      else if v.explain_policy = .explainOnly then
        if containsSubstr (upperStr sql) "ANALYZE" then
          .error (.security "EXPLAIN ANALYZE is not allowed")
        else .ok ()
      else
        .ok ()
    else
      .error (.security ("Command " ++ cmd_name ++ " is not allowed"))
  | _ =>
    if statement.isSelect then .ok ()
    else if statement.isUnion then .ok ()
    else if statement.isForbiddenType then
      .error (.security
        ("Statement type " ++ upperStr statement.key ++ " is not allowed"))
    else if !statement.isAllowedType then
      if upperStr statement.key ≠ "SELECT" && upperStr statement.key ≠ "UNION" then
        .error (.security
          ("Statement type " ++ upperStr statement.key ++ " is not allowed"))
      else .ok ()
    else .ok ()

/-- The loop body of `_check_blocked_functions`: first walked node that
is an `exp.Func` with lower-cased name in the deny list. -/
def funcViolation (blocked : List String) : List SqlNode → Option String
  | [] => none
  | .func name :: rest =>
    if blocked.contains (lowerStr name) then some (lowerStr name)
    else funcViolation blocked rest
  | _ :: rest => funcViolation blocked rest

/-- `SQLValidator._check_blocked_functions` (`sql_validator.py:194-204`). -/
def check_blocked_functions (v : SQLValidator) (statement : Stmt) :
    Except VError Unit :=
  match funcViolation v.blocked_functions statement.walk with
  | some name => .error (.security ("Function " ++ name ++ " is not allowed"))
  | none => .ok ()

/-- The loop body of `_check_blocked_tables` over
`statement.find_all(exp.Table)`. -/
def tableViolation (blocked : List String) : List SqlNode → Option String
  | [] => none
  | .table name :: rest =>
    if blocked.contains (lowerStr name) then some (lowerStr name)
    else tableViolation blocked rest
  | _ :: rest => tableViolation blocked rest

/-- `SQLValidator._check_blocked_tables` (`sql_validator.py:206-214`). -/
def check_blocked_tables (v : SQLValidator) (statement : Stmt) :
    Except VError Unit :=
  if v.blocked_tables.isEmpty then .ok ()
  else
    match tableViolation v.blocked_tables statement.walk with
    | some name => .error (.security ("Access to table " ++ name ++ " is blocked"))
    | none => .ok ()

/-- The loop body of `_check_blocked_columns` over
`statement.find_all(exp.Column)`: the bare lower-cased name is tested
first, then (when the column is qualified) the `table.column` form. -/
def columnViolation (blocked : List String) : List SqlNode → Option String
  | [] => none
  | .column name tbl :: rest =>
    let col_name := lowerStr name
    if blocked.contains col_name then some col_name
    else if tbl ≠ "" && blocked.contains (lowerStr tbl ++ "." ++ col_name) then
      some (lowerStr tbl ++ "." ++ col_name)
    else columnViolation blocked rest
  | _ :: rest => columnViolation blocked rest

/-- `SQLValidator._check_blocked_columns` (`sql_validator.py:216-233`). -/
def check_blocked_columns (v : SQLValidator) (statement : Stmt) :
    Except VError Unit :=
  if v.blocked_columns.isEmpty then .ok ()
  else
    match columnViolation v.blocked_columns statement.walk with
    | some name => .error (.security ("Access to column " ++ name ++ " is blocked"))
    | none => .ok ()

/-! ### The parser oracle

sqlglot is an external dependency; the validator theorems hold for any
parser.  `parseMulti` models `sqlglot.parse` (`None` = raise, otherwise
the statement list); `parse_one` takes the first statement, raising when
there is none.  The single assumed fact `ws_empty` states that empty or
whitespace-only text parses to no statement, which holds of `sqlglot.parse`
(it returns `[]` on empty input). -/

structure Parser where
  parseMulti : String → Option (List Stmt)
  ws_empty : ∀ s, wsOnly s = true → parseMulti s = none ∨ parseMulti s = some []

/-- `sqlglot.parse_one`: the first parsed statement, failure when the
parse fails or yields nothing. -/
def parse_one (p : Parser) (sql : String) : Option Stmt :=
  (p.parseMulti sql).bind List.head?

/-- `SQLValidator.validate_or_raise` (`sql_validator.py:61-101`). -/
def validate_or_raise (p : Parser) (v : SQLValidator) (sql : String) :
    Except VError Unit :=
  if wsOnly sql then .error (.parse "SQL query is empty")
  else
    match p.parseMulti sql with
    | none => .error (.parse "Failed to parse SQL")
    | some parsed =>
      match parsed.head? with
      | none => .error (.parse "Failed to parse SQL")
      | some statement =>
        if parsed.length > 1 then
          .error (.security "Multiple SQL statements are not allowed")
        else do
          check_statement_type v statement sql
          check_blocked_functions v statement
          check_blocked_tables v statement
          check_blocked_columns v statement

/-- `SQLValidator.validate` (`sql_validator.py:46-59`): both raised
error classes are caught and turned into `(False, str(e))`. -/
def validate (p : Parser) (v : SQLValidator) (sql : String) :
    Bool × Option String :=
  match validate_or_raise p v sql with
  | .ok _ => (true, none)
  | .error e => (false, some e.msg)

/-- A parser recognising exactly one concrete text, used to instantiate
the oracle in witnesses; any other input parses to no statement. -/
def constParser (sql0 : String) (stmts : List Stmt)
    (h : wsOnly sql0 = false) : Parser where
  parseMulti := fun s => if s = sql0 then some stmts else some []
  ws_empty := fun s hws => by
    by_cases hs : s = sql0
    · subst hs
      rw [hws] at h
      exact absurd h (by simp)
    · right
      simp [hs]

/-! ### Executable model of sqlglot on a concrete fragment

For the claims that need the actual parse/print pipeline
(`normalize_sql`, `extract_tables`, the semicolon behaviour of
`sqlglot.parse`), sqlglot is modelled executably on the fragment
`SELECT * FROM t1, t2, ...` (optionally terminated by `;`):
the text is split on statement separators, each non-blank segment is
tokenized on whitespace/commas, and the token shape
`SELECT * FROM <ident>+` is recognised.  As in sqlglot, a trailing
separator does not create an extra statement, and rendering an AST
produces the canonical `SELECT * FROM a, b` text. -/

/-- Token separators of the fragment tokenizer. -/
def isSepChar (c : Char) : Bool :=
  c = ' ' || c = '\t' || c = '\n' || c = '\r' || c = ','

/-- Whitespace/comma tokenizer with an accumulator of the (reversed)
current token. -/
def tokenizeAux : List Char → List Char → List (List Char)
  | [], acc => if acc.isEmpty then [] else [acc.reverse]
  | c :: cs, acc =>
    if isSepChar c then
      if acc.isEmpty then tokenizeAux cs []
      else acc.reverse :: tokenizeAux cs []
    else tokenizeAux cs (c :: acc)

def tokenize (l : List Char) : List (List Char) := tokenizeAux l []

/-- Split a char list on `;` (the fragment has no string literals, so
every `;` separates statements, as in sqlglot's tokenizer). -/
def splitSemi : List Char → List (List Char)
  | [] => [[]]
  | c :: cs =>
    if c = ';' then [] :: splitSemi cs
    else
      match splitSemi cs with
      | s :: ss => (c :: s) :: ss
      | [] => [[c]]

def upperChars (l : List Char) : List Char := l.map Char.toUpper

/-- Recognise the token shape `SELECT * FROM <ident>+` (keywords
case-insensitive) and build the sqlglot `Select` node, whose walk
contains one `Table` node per referenced table. -/
def segParseToks : List (List Char) → Option Stmt
  | s :: st :: f :: rest =>
    if upperChars s = ['S', 'E', 'L', 'E', 'C', 'T'] ∧ st = ['*'] ∧
        upperChars f = ['F', 'R', 'O', 'M'] ∧ rest ≠ [] then
      some (.select (rest.map fun t => .table (String.mk t)))
    else none
  | _ => none

/-- Parse every non-blank `;`-separated segment; any unparsable segment
fails the whole parse (`sqlglot.parse` raises). -/
def parseSegs : List (List Char) → Option (List Stmt)
  | [] => some []
  | s :: ss =>
    match segParseToks (tokenize s), parseSegs ss with
    | some st, some sts => some (st :: sts)
    | _, _ => none

/-- Model of `sqlglot.parse` on the fragment. -/
def miniParseMulti (sql : String) : Option (List Stmt) :=
  parseSegs ((splitSemi sql.data).filter fun s => !s.all isPyWs)

theorem splitSemi_no_semi : ∀ l : List Char, (∀ c ∈ l, c ≠ ';') →
    splitSemi l = [l] := by
  intro l
  induction l with
  | nil => intro _; rfl
  | cons c cs ih =>
    intro h
    have hc : c ≠ ';' := h c (List.mem_cons_self c cs)
    have hcs := ih fun x hx => h x (List.mem_cons_of_mem c hx)
    simp [splitSemi, hc, hcs]

/-- The parser oracle built from the fragment model. -/
def miniParser : Parser where
  parseMulti := miniParseMulti
  ws_empty := by
    intro s hws
    right
    have hsemi : ∀ c ∈ s.data, c ≠ ';' := by
      intro c hc
      have : isPyWs c = true := by
        have := List.all_eq_true.mp hws
        exact this c hc
      intro hcsemi
      subst hcsemi
      simp [isPyWs] at this
    have hsplit := splitSemi_no_semi s.data hsemi
    simp only [miniParseMulti, hsplit]
    have : s.data.all isPyWs = true := hws
    simp [List.filter, this, parseSegs]

/-- The names of the table nodes of a walked node list, as char lists
(used by the fragment renderer). -/
def tableNamesOf (nodes : List SqlNode) : List (List Char) :=
  nodes.filterMap fun n =>
    match n with
    | .table nm => some nm.data
    | _ => none

/-- `", "`-intercalation of the rendered table list. -/
def icomma : List (List Char) → List Char
  | [] => []
  | [t] => t
  | t :: ts => t ++ ',' :: ' ' :: icomma ts

/-- Canonical rendering of the fragment: `SELECT * FROM a, b`. -/
def renderChars (ts : List (List Char)) : List Char :=
  ['S', 'E', 'L', 'E', 'C', 'T'] ++ ' ' :: '*' :: ' ' ::
    (['F', 'R', 'O', 'M'] ++ ' ' :: icomma ts)

/-- Model of `expression.sql()` on the statements the fragment parser
produces (other statements do not arise from `miniParser`). -/
def renderStmt : Stmt → String
  | .select nodes => String.mk (renderChars (tableNamesOf nodes))
  | _ => ""

/-- `SQLValidator.normalize_sql` (`sql_validator.py:235-247`):
`parse_one(sql).sql()`, `none` modelling the raised `SQLParseError`. -/
def normalize_sql (sql : String) : Option String :=
  (parse_one miniParser sql).map renderStmt

/-- `SQLValidator.extract_tables` (`sql_validator.py:249-265`): the
distinct names of the `exp.Table` nodes of `parse_one(sql)`, sorted. -/
def extract_tables (sql : String) : Option (List String) :=
  (parse_one miniParser sql).map fun st =>
    List.insertionSort (fun a b : String => a ≤ b)
      ((st.walk.filterMap fun n =>
        match n with
        | .table nm => some nm
        | _ => none).dedup)

/-! ### Round-trip lemmas for the fragment model -/

theorem tokenizeAux_token : ∀ (t rest acc : List Char),
    (∀ c ∈ t, isSepChar c = false) →
    tokenizeAux (t ++ rest) acc = tokenizeAux rest (t.reverse ++ acc) := by
  intro t
  induction t with
  | nil => intro rest acc _; simp
  | cons c t ih =>
    intro rest acc h
    have hc : isSepChar c = false := h c (List.mem_cons_self c t)
    have ht : ∀ x ∈ t, isSepChar x = false :=
      fun x hx => h x (List.mem_cons_of_mem c hx)
    have h1 : tokenizeAux (c :: t ++ rest) acc = tokenizeAux (t ++ rest) (c :: acc) := by
      simp [tokenizeAux, hc]
    rw [h1, ih rest (c :: acc) ht, List.reverse_cons, List.append_assoc,
      List.singleton_append]

theorem tokenize_icomma : ∀ ts : List (List Char),
    (∀ t ∈ ts, t ≠ [] ∧ ∀ c ∈ t, isSepChar c = false) → ts ≠ [] →
    tokenizeAux (icomma ts) [] = ts := by
  intro ts
  induction ts with
  | nil => intro _ h; exact absurd rfl h
  | cons t ts ih =>
    intro h _
    obtain ⟨htne, htc⟩ := h t (List.mem_cons_self t ts)
    cases ts with
    | nil =>
      have : tokenizeAux (t ++ []) [] = tokenizeAux [] (t.reverse ++ []) :=
        tokenizeAux_token t [] [] htc
      simp only [List.append_nil] at this
      simp only [icomma, this, tokenizeAux]
      simp [htne]
    | cons t2 ts2 =>
      have hstep : tokenizeAux (t ++ ',' :: ' ' :: icomma (t2 :: ts2)) [] =
          tokenizeAux (',' :: ' ' :: icomma (t2 :: ts2)) t.reverse := by
        have := tokenizeAux_token t (',' :: ' ' :: icomma (t2 :: ts2)) [] htc
        simpa using this
      have hrevne : t.reverse.isEmpty = false := by
        simp [List.isEmpty_iff, htne]
      have hrest := ih (fun x hx => h x (List.mem_cons_of_mem t hx))
        (List.cons_ne_nil t2 ts2)
      simp only [icomma, hstep, tokenizeAux, isSepChar]
      simp [hrevne, hrest]

theorem tokenize_renderChars (ts : List (List Char)) :
    tokenize (renderChars ts) =
      ['S', 'E', 'L', 'E', 'C', 'T'] :: ['*'] :: ['F', 'R', 'O', 'M'] ::
        tokenizeAux (icomma ts) [] := rfl

theorem splitSemi_ne_nil : ∀ l : List Char, splitSemi l ≠ [] := by
  intro l
  cases l with
  | nil => simp [splitSemi]
  | cons c cs =>
    by_cases hc : c = ';'
    · simp [splitSemi, hc]
    · simp only [splitSemi, hc, if_false]
      cases h : splitSemi cs with
      | nil => simp
      | cons s ss => simp

theorem splitSemi_mem : ∀ (l : List Char) (seg : List Char), seg ∈ splitSemi l →
    ∀ c ∈ seg, c ∈ l ∧ c ≠ ';' := by
  intro l
  induction l with
  | nil =>
    intro seg hseg c hc
    simp only [splitSemi, List.mem_singleton] at hseg
    subst hseg
    exact absurd hc (List.not_mem_nil c)
  | cons x xs ih =>
    intro seg hseg c hc
    by_cases hx : x = ';'
    · simp only [splitSemi, hx, if_true, List.mem_cons] at hseg
      rcases hseg with h | h
      · subst h; exact absurd hc (List.not_mem_nil c)
      · obtain ⟨h1, h2⟩ := ih seg h c hc
        exact ⟨List.mem_cons_of_mem x h1, h2⟩
    · simp only [splitSemi, hx, if_false] at hseg
      cases hcs : splitSemi xs with
      | nil => exact absurd hcs (splitSemi_ne_nil xs)
      | cons s ss =>
        rw [hcs] at hseg
        rcases List.mem_cons.mp hseg with h | h
        · subst h
          rcases List.mem_cons.mp hc with h | h
          · subst h
            exact ⟨List.mem_cons_self c xs, hx⟩
          · obtain ⟨h1, h2⟩ := ih s (hcs ▸ List.mem_cons_self s ss) c h
            exact ⟨List.mem_cons_of_mem x h1, h2⟩
        · obtain ⟨h1, h2⟩ := ih seg (hcs ▸ List.mem_cons_of_mem s h) c hc
          exact ⟨List.mem_cons_of_mem x h1, h2⟩

theorem tokenizeAux_sound : ∀ (l acc : List Char),
    (∀ c ∈ acc, isSepChar c = false) →
    ∀ t ∈ tokenizeAux l acc, t ≠ [] ∧ ∀ c ∈ t, isSepChar c = false ∧ (c ∈ l ∨ c ∈ acc) := by
  intro l
  induction l with
  | nil =>
    intro acc hacc t ht
    by_cases he : acc.isEmpty
    · simp [tokenizeAux, he] at ht
    · have he' : acc.isEmpty = false := by simpa using he
      simp only [tokenizeAux, he', Bool.false_eq_true, if_false,
        List.mem_singleton] at ht
      subst ht
      refine ⟨by simpa [List.isEmpty_iff] using he, fun c hc => ?_⟩
      rw [List.mem_reverse] at hc
      exact ⟨hacc c hc, Or.inr hc⟩
  | cons x xs ih =>
    intro acc hacc t ht
    by_cases hx : isSepChar x = true
    · by_cases he : acc.isEmpty
      · simp only [tokenizeAux, hx, if_true, he] at ht
        obtain ⟨h1, h2⟩ := ih [] (by simp) t ht
        exact ⟨h1, fun c hc => ⟨(h2 c hc).1,
          Or.inl (List.mem_cons_of_mem x ((h2 c hc).2.resolve_right (List.not_mem_nil c)))⟩⟩
      · have he' : acc.isEmpty = false := by simpa using he
        simp only [tokenizeAux, hx, if_true, he', Bool.false_eq_true, if_false,
          List.mem_cons] at ht
        rcases ht with h | h
        · subst h
          refine ⟨by simpa [List.isEmpty_iff] using he, fun c hc => ?_⟩
          rw [List.mem_reverse] at hc
          exact ⟨hacc c hc, Or.inr hc⟩
        · obtain ⟨h1, h2⟩ := ih [] (by simp) t h
          exact ⟨h1, fun c hc => ⟨(h2 c hc).1,
            Or.inl (List.mem_cons_of_mem x ((h2 c hc).2.resolve_right (List.not_mem_nil c)))⟩⟩
    · have hx' : isSepChar x = false := by simpa using hx
      simp only [tokenizeAux, hx', Bool.false_eq_true, if_false] at ht
      have hacc' : ∀ c ∈ x :: acc, isSepChar c = false := by
        intro c hc
        rcases List.mem_cons.mp hc with h | h
        · subst h; exact hx'
        · exact hacc c h
      obtain ⟨h1, h2⟩ := ih (x :: acc) hacc' t ht
      refine ⟨h1, fun c hc => ⟨(h2 c hc).1, ?_⟩⟩
      rcases (h2 c hc).2 with h | h
      · exact Or.inl (List.mem_cons_of_mem x h)
      · rcases List.mem_cons.mp h with h | h
        · subst h; exact Or.inl (List.mem_cons_self c xs)
        · exact Or.inr h

theorem icomma_mem : ∀ (ts : List (List Char)) (c : Char), c ∈ icomma ts →
    (∃ t ∈ ts, c ∈ t) ∨ c = ',' ∨ c = ' ' := by
  intro ts
  induction ts with
  | nil => intro c hc; exact absurd hc (List.not_mem_nil c)
  | cons t ts ih =>
    intro c hc
    cases ts with
    | nil => exact Or.inl ⟨t, List.mem_cons_self t [], by simpa [icomma] using hc⟩
    | cons t2 ts2 =>
      simp only [icomma, List.mem_append, List.mem_cons] at hc
      rcases hc with h | h | h | h
      · exact Or.inl ⟨t, List.mem_cons_self t _, h⟩
      · exact Or.inr (Or.inl h)
      · exact Or.inr (Or.inr h)
      · rcases ih c h with ⟨u, hu, hcu⟩ | h
        · exact Or.inl ⟨u, List.mem_cons_of_mem t hu, hcu⟩
        · exact Or.inr h

theorem parseSegs_eq_nil : ∀ ss : List (List Char), parseSegs ss = some [] → ss = [] := by
  intro ss h
  cases ss with
  | nil => rfl
  | cons s ss =>
    cases h1 : segParseToks (tokenize s) with
    | none => simp [parseSegs, h1] at h
    | some st =>
      cases h2 : parseSegs ss with
      | none => simp [parseSegs, h1, h2] at h
      | some sts => simp [parseSegs, h1, h2] at h

/-- A token list shape accepted by the fragment parser: nonempty tokens
with no separator characters and no semicolon. -/
def wfToks (ts : List (List Char)) : Prop :=
  ∀ t ∈ ts, t ≠ [] ∧ ∀ c ∈ t, isSepChar c = false ∧ c ≠ ';'


theorem segParseToks_inv (toks : List (List Char)) (stmt : Stmt)
    (h : segParseToks toks = some stmt) :
    ∃ a b f rest, toks = a :: b :: f :: rest ∧ rest ≠ [] ∧
      stmt = .select (rest.map fun t => .table (String.mk t)) := by
  rcases toks with _ | ⟨a, _ | ⟨b, _ | ⟨f, rest⟩⟩⟩
  · simp [segParseToks] at h
  · simp [segParseToks] at h
  · simp [segParseToks] at h
  · by_cases hcond : upperChars a = ['S', 'E', 'L', 'E', 'C', 'T'] ∧ b = ['*'] ∧
        upperChars f = ['F', 'R', 'O', 'M'] ∧ rest ≠ []
    · refine ⟨a, b, f, rest, rfl, hcond.2.2.2, ?_⟩
      simp only [segParseToks, if_pos hcond] at h
      exact (Option.some.inj h).symm
    · simp only [segParseToks, if_neg hcond] at h
      cases h

/-- Inversion of a successful single-statement parse: the statement is a
`SELECT *` over a nonempty list of well-formed table tokens. -/
theorem miniParse_inv (sql : String) (stmt : Stmt)
    (h : miniParseMulti sql = some [stmt]) :
    ∃ ts, stmt = .select (ts.map fun t => .table (String.mk t)) ∧ ts ≠ [] ∧ wfToks ts := by
  unfold miniParseMulti at h
  cases hseg : (splitSemi sql.data).filter (fun s => !s.all isPyWs) with
  | nil => rw [hseg] at h; simp [parseSegs] at h
  | cons s ss =>
    rw [hseg] at h
    cases h1 : segParseToks (tokenize s) with
    | none => simp [parseSegs, h1] at h
    | some st =>
      cases h2 : parseSegs ss with
      | none => simp [parseSegs, h1, h2] at h
      | some sts =>
        simp only [parseSegs, h1, h2, Option.some_inj] at h
        obtain ⟨hst, _⟩ := List.cons_eq_cons.mp h
        subst hst
        obtain ⟨a, b, f, rest, heq, hne, hsel⟩ := segParseToks_inv _ _ h1
        refine ⟨rest, hsel, hne, ?_⟩
        intro t ht
        have htok : t ∈ tokenizeAux s [] := by
          have : t ∈ tokenize s := by
            rw [heq]
            exact List.mem_cons_of_mem a (List.mem_cons_of_mem b
              (List.mem_cons_of_mem f ht))
          simpa [tokenize] using this
        obtain ⟨h4, h5⟩ := tokenizeAux_sound s [] (by simp) t htok
        have hmem : s ∈ splitSemi sql.data :=
          List.mem_of_mem_filter (hseg ▸ List.mem_cons_self s ss)
        refine ⟨h4, fun c hc => ⟨(h5 c hc).1, ?_⟩⟩
        rcases (h5 c hc).2 with h7 | h7
        · exact (splitSemi_mem sql.data s hmem c h7).2
        · exact absurd h7 (List.not_mem_nil c)

theorem tableNamesOf_map (ts : List (List Char)) :
    tableNamesOf (ts.map fun t => .table (String.mk t)) = ts := by
  induction ts with
  | nil => rfl
  | cons t ts ih => simp [tableNamesOf] at ih ⊢; exact ih

theorem renderChars_no_semi (ts : List (List Char)) (hwf : wfToks ts) :
    ∀ c ∈ renderChars ts, c ≠ ';' := by
  intro c hc hcsemi
  subst hcsemi
  simp [renderChars] at hc
  rcases icomma_mem ts ';' hc with ⟨t, ht, hct⟩ | h | h
  · exact absurd rfl ((hwf t ht).2 ';' hct).2
  · exact absurd h (by decide)
  · exact absurd h (by decide)

/-- Print/parse round trip on the fragment: re-parsing the canonical
rendering of a parsed statement yields the statement back. -/
theorem miniParse_render (ts : List (List Char)) (hne : ts ≠ []) (hwf : wfToks ts) :
    miniParseMulti (renderStmt (.select (ts.map fun t => .table (String.mk t)))) =
      some [.select (ts.map fun t => .table (String.mk t))] := by
  have hrender : renderStmt (.select (ts.map fun t => .table (String.mk t))) =
      String.mk (renderChars ts) := by
    simp [renderStmt, tableNamesOf_map]
  rw [hrender]
  have hdata : (String.mk (renderChars ts)).data = renderChars ts := rfl
  unfold miniParseMulti
  rw [hdata]
  have hsplit : splitSemi (renderChars ts) = [renderChars ts] :=
    splitSemi_no_semi _ (renderChars_no_semi ts hwf)
  rw [hsplit]
  have hnotws : (renderChars ts).all isPyWs = false := by
    apply List.all_eq_false.mpr
    exact ⟨'S', by simp [renderChars], by decide⟩
  have hfilter : List.filter (fun s => !s.all isPyWs) [renderChars ts] =
      [renderChars ts] := by
    simp [List.filter, hnotws]
  rw [hfilter]
  have htok : tokenize (renderChars ts) =
      ['S', 'E', 'L', 'E', 'C', 'T'] :: ['*'] :: ['F', 'R', 'O', 'M'] :: ts := by
    rw [tokenize_renderChars]
    rw [tokenize_icomma ts (fun t ht => ⟨(hwf t ht).1,
      fun c hc => ((hwf t ht).2 c hc).1⟩) hne]
  have hseg : segParseToks (tokenize (renderChars ts)) =
      some (.select (ts.map fun t => .table (String.mk t))) := by
    rw [htok]
    simp only [segParseToks]
    split
    · rfl
    · next hneg => exact absurd ⟨by decide, trivial, by decide, hne⟩ hneg
  simp [parseSegs, hseg]

/-! ### Spec-side predicates (used to state claims, not taken from the code) -/

/-- Spec-side reading of `includes the ANALYZE option`: the word
`ANALYZE` occurs as a stand-alone token of the statement text
(identifier characters such as `analyze_log` form a single token and do
not count). -/
def hasAnalyzeOption (sql : String) : Bool :=
  (tokenize sql.data).any fun t => upperChars t = ['A', 'N', 'A', 'L', 'Y', 'Z', 'E']

/-- Spec-side predicate of claim C3: the raw text contains a `;`
outside single-quoted string literals. -/
def semiOutsideAux : List Char → Bool → Bool
  | [], _ => false
  | c :: cs, inStr =>
    if c = '\'' then semiOutsideAux cs (!inStr)
    else if c = ';' then (if inStr then semiOutsideAux cs inStr else true)
    else semiOutsideAux cs inStr

def semicolonOutsideStrings (sql : String) : Bool := semiOutsideAux sql.data false

/-! ### The host tool `query` (`server.py:340-453`)

The orchestrator, `request_context`, `QueryRequest` and
`QueryResponse.to_dict` live outside the tool function; the whole
`try` body is an oracle `run` returning either the serialized response
dict or a raised exception message.  The second component of the result
records whether the request scope was entered (the orchestrator can
only be called from inside it), which is what the claims about
"no orchestrator call" need. -/

/-- The `error` object of a response dict: `{code, message, details}`;
`details` is a JSON object or `None`. -/
structure ErrorObj where
  code : String
  message : String
  details : Option (List (String × String))
deriving DecidableEq, Repr

/-- A serialized tool response: the fields the claims inspect. -/
structure RespDict where
  success : Bool
  error : Option ErrorObj
deriving DecidableEq, Repr

/-- `query` (`server.py:340-453`): `None` orchestrator short-circuits
with `SERVER_NOT_INITIALIZED`; a bad `return_type` short-circuits with
`INVALID_PARAMETER`; otherwise the `try` body runs and any exception is
caught and mapped to an `INVALID_REQUEST` response. -/
def queryTool (orchestrator : Option Unit)
    (run : String → Option String → String → Except String RespDict)
    (question : String) (database : Option String) (return_type : String) :
    RespDict × Bool :=
  match orchestrator with
  | none =>
    ({ success := false,
       error := some { code := "SERVER_NOT_INITIALIZED",
                       message := "Server not initialized properly",
                       details := none } }, false)
  | some _ =>
    if return_type ≠ "sql" ∧ return_type ≠ "result" then
      ({ success := false,
         error := some { code := "INVALID_PARAMETER",
                         message := "Invalid return_type: " ++ return_type ++
                           ". Must be sql or result.",
                         details := some [("return_type", return_type)] } }, false)
    else
      match run question database return_type with
      | .ok d => (d, true)
      | .error e =>
        ({ success := false,
           error := some { code := "INVALID_REQUEST",
                           message := "Invalid request parameters: " ++ e,
                           details := some [("error", e)] } }, true)

/-! ### Pool registration during startup (`server.py:130-173`)

The environment is a map from variable name to `Option String`
(`none` = unset).  `os.getenv(k, d)` returns the set value, even when
empty, and the default only when unset; `if os.getenv("DATABASE2_NAME"):`
is true only for a set, nonempty value.  `create_pool` and the pool
objects are irrelevant to the claim; the registry `_pools` maps the
configured database name to its `DatabaseConfig`, with Python-dict
overwrite semantics.  Ports stay strings here: `int()` is applied to
the same string on both the primary and the fallback path, so fallback
equality is decided at the string level. -/

structure DatabaseConfig where
  host : String
  port : String
  name : String
  user : String
  password : String
deriving DecidableEq, Repr

/-- `os.getenv(key, default)`. -/
def getenvD (env : String → Option String) (key dflt : String) : String :=
  (env key).getD dflt

/-- Python truthiness of `os.getenv(key)`. -/
def envTruthy (env : String → Option String) (key : String) : Bool :=
  match env key with
  | none => false
  | some s => s ≠ ""

/-- `db1_config` (`server.py:139-145`). -/
def db1Config (env : String → Option String) : DatabaseConfig where
  host := getenvD env "DATABASE_HOST" "localhost"
  port := getenvD env "DATABASE_PORT" "5432"
  name := getenvD env "DATABASE_NAME" "postgres"
  user := getenvD env "DATABASE_USER" "postgres"
  password := getenvD env "DATABASE_PASSWORD" ""

/-- `db2_config` (`server.py:158-164`): each field falls back to the
primary lookup expression. -/
def db2Config (env : String → Option String) : DatabaseConfig where
  host := getenvD env "DATABASE2_HOST" (getenvD env "DATABASE_HOST" "localhost")
  port := getenvD env "DATABASE2_PORT" (getenvD env "DATABASE_PORT" "5432")
  name := (env "DATABASE2_NAME").getD ""
  user := getenvD env "DATABASE2_USER" (getenvD env "DATABASE_USER" "postgres")
  password := getenvD env "DATABASE2_PASSWORD" (getenvD env "DATABASE_PASSWORD" "")

/-- `_pools[name] = pool` with Python-dict overwrite semantics. -/
def dictInsert (d : List (String × DatabaseConfig)) (k : String)
    (v : DatabaseConfig) : List (String × DatabaseConfig) :=
  if d.any fun p => p.1 = k then
    d.map fun p => if p.1 = k then (k, v) else p
  else d ++ [(k, v)]

/-- The pool registry built by `lifespan` (`server.py:130-173`): the
primary pool always, the second only under a truthy `DATABASE2_NAME`. -/
def lifespanPools (env : String → Option String) :
    List (String × DatabaseConfig) :=
  let pools := dictInsert [] (db1Config env).name (db1Config env)
  if envTruthy env "DATABASE2_NAME" then
    dictInsert pools (db2Config env).name (db2Config env)
  else pools

/-! ### Helper lemmas about the validator pipeline -/

theorem except_bind_error (e : VError) (f : Unit → Except VError Unit) :
    (Except.error e >>= f) = Except.error e := rfl

theorem except_bind_ok (f : Unit → Except VError Unit) :
    (Except.ok () >>= f) = f () := rfl

theorem chain2_ok_iff (a : Except VError Unit) (f : Unit → Except VError Unit) :
    (a >>= f) = .ok () ↔ a = .ok () ∧ f () = .ok () := by
  cases a with
  | error e => simp [except_bind_error]
  | ok u => cases u; simp [except_bind_ok]

theorem parse_one_inv (p : Parser) (sql : String) (stmt : Stmt)
    (h : parse_one p sql = some stmt) :
    ∃ rest, p.parseMulti sql = some (stmt :: rest) := by
  unfold parse_one at h
  cases hm : p.parseMulti sql with
  | none => rw [hm] at h; cases h
  | some l =>
    rw [hm] at h
    cases l with
    | nil => simp at h
    | cons a rest =>
      simp at h
      subst h
      exact ⟨rest, rfl⟩

theorem parse_some_not_wsOnly (p : Parser) (sql : String) (l : List Stmt)
    (hp : p.parseMulti sql = some l) (hl : l ≠ []) : wsOnly sql = false := by
  cases hws : wsOnly sql with
  | false => rfl
  | true =>
    rcases p.ws_empty sql hws with h1 | h1
    · rw [hp] at h1; cases h1
    · rw [hp] at h1
      exact absurd (Option.some.inj h1) hl

/-- Under a successful single-statement parse the validator is exactly
the four checks in sequence. -/
theorem validate_or_raise_single (p : Parser) (v : SQLValidator) (sql : String)
    (stmt : Stmt) (hp : p.parseMulti sql = some [stmt]) :
    validate_or_raise p v sql =
      (check_statement_type v stmt sql >>= fun _ =>
       check_blocked_functions v stmt >>= fun _ =>
       check_blocked_tables v stmt >>= fun _ =>
       check_blocked_columns v stmt) := by
  have hws : wsOnly sql = false :=
    parse_some_not_wsOnly p sql [stmt] hp (by simp)
  unfold validate_or_raise
  rw [hws]
  simp only [Bool.false_eq_true, if_false, hp, List.head?, List.length_singleton,
    gt_iff_lt, lt_irrefl, if_false]

theorem validate_or_raise_single_ok_iff (p : Parser) (v : SQLValidator)
    (sql : String) (stmt : Stmt) (hp : p.parseMulti sql = some [stmt]) :
    validate_or_raise p v sql = .ok () ↔
      check_statement_type v stmt sql = .ok () ∧
      check_blocked_functions v stmt = .ok () ∧
      check_blocked_tables v stmt = .ok () ∧
      check_blocked_columns v stmt = .ok () := by
  rw [validate_or_raise_single p v sql stmt hp, chain2_ok_iff]
  constructor
  · rintro ⟨h1, h2⟩
    rw [chain2_ok_iff] at h2
    obtain ⟨h2, h3⟩ := h2
    rw [chain2_ok_iff] at h3
    exact ⟨h1, h2, h3.1, h3.2⟩
  · rintro ⟨h1, h2, h3, h4⟩
    exact ⟨h1, by rw [chain2_ok_iff]; exact ⟨h2, by rw [chain2_ok_iff]; exact ⟨h3, h4⟩⟩⟩

theorem validate_fst_true_iff (p : Parser) (v : SQLValidator) (sql : String) :
    (validate p v sql).fst = true ↔ validate_or_raise p v sql = .ok () := by
  unfold validate
  cases h : validate_or_raise p v sql with
  | ok u => cases u; simp
  | error e => simp

theorem validate_of_error (p : Parser) (v : SQLValidator) (sql : String)
    (e : VError) (h : validate_or_raise p v sql = .error e) :
    validate p v sql = (false, some e.msg) := by
  unfold validate
  rw [h]

theorem funcViolation_of_mem (blocked : List String) (l : List SqlNode)
    (name : String) (hmem : SqlNode.func name ∈ l)
    (hb : lowerStr name ∈ blocked) :
    ∃ m, funcViolation blocked l = some m := by
  induction l with
  | nil => exact absurd hmem (List.not_mem_nil _)
  | cons n rest ih =>
    cases n with
    | func nm =>
      by_cases hc : lowerStr nm ∈ blocked
      · exact ⟨lowerStr nm, by simp [funcViolation, hc]⟩
      · have hne : SqlNode.func name ≠ SqlNode.func nm := by
          intro he
          rw [← (SqlNode.func.inj he)] at hc
          exact hc hb
        obtain ⟨m, hm⟩ := ih ((List.mem_cons.mp hmem).resolve_left hne)
        exact ⟨m, by simp [funcViolation, hc, hm]⟩
    | table nm =>
      obtain ⟨m, hm⟩ := ih ((List.mem_cons.mp hmem).resolve_left (by simp))
      exact ⟨m, by simp [funcViolation, hm]⟩
    | column nm tb =>
      obtain ⟨m, hm⟩ := ih ((List.mem_cons.mp hmem).resolve_left (by simp))
      exact ⟨m, by simp [funcViolation, hm]⟩
    | literal t =>
      obtain ⟨m, hm⟩ := ih ((List.mem_cons.mp hmem).resolve_left (by simp))
      exact ⟨m, by simp [funcViolation, hm]⟩
    | other =>
      obtain ⟨m, hm⟩ := ih ((List.mem_cons.mp hmem).resolve_left (by simp))
      exact ⟨m, by simp [funcViolation, hm]⟩

theorem tableViolation_of_mem (blocked : List String) (l : List SqlNode)
    (name : String) (hmem : SqlNode.table name ∈ l)
    (hb : lowerStr name ∈ blocked) :
    ∃ m, tableViolation blocked l = some m := by
  induction l with
  | nil => exact absurd hmem (List.not_mem_nil _)
  | cons n rest ih =>
    cases n with
    | table nm =>
      by_cases hc : lowerStr nm ∈ blocked
      · exact ⟨lowerStr nm, by simp [tableViolation, hc]⟩
      · have hne : SqlNode.table name ≠ SqlNode.table nm := by
          intro he
          rw [← (SqlNode.table.inj he)] at hc
          exact hc hb
        obtain ⟨m, hm⟩ := ih ((List.mem_cons.mp hmem).resolve_left hne)
        exact ⟨m, by simp [tableViolation, hc, hm]⟩
    | func nm =>
      obtain ⟨m, hm⟩ := ih ((List.mem_cons.mp hmem).resolve_left (by simp))
      exact ⟨m, by simp [tableViolation, hm]⟩
    | column nm tb =>
      obtain ⟨m, hm⟩ := ih ((List.mem_cons.mp hmem).resolve_left (by simp))
      exact ⟨m, by simp [tableViolation, hm]⟩
    | literal t =>
      obtain ⟨m, hm⟩ := ih ((List.mem_cons.mp hmem).resolve_left (by simp))
      exact ⟨m, by simp [tableViolation, hm]⟩
    | other =>
      obtain ⟨m, hm⟩ := ih ((List.mem_cons.mp hmem).resolve_left (by simp))
      exact ⟨m, by simp [tableViolation, hm]⟩

theorem columnViolation_of_mem (blocked : List String) (l : List SqlNode)
    (name tbl : String) (hmem : SqlNode.column name tbl ∈ l)
    (hb : lowerStr name ∈ blocked ∨
      (tbl ≠ "" ∧ lowerStr tbl ++ "." ++ lowerStr name ∈ blocked)) :
    ∃ m, columnViolation blocked l = some m := by
  induction l with
  | nil => exact absurd hmem (List.not_mem_nil _)
  | cons n rest ih =>
    cases n with
    | column nm tb =>
      by_cases hc1 : lowerStr nm ∈ blocked
      · exact ⟨lowerStr nm, by simp [columnViolation, hc1]⟩
      · by_cases hc2 : tb ≠ "" ∧ lowerStr tb ++ "." ++ lowerStr nm ∈ blocked
        · exact ⟨lowerStr tb ++ "." ++ lowerStr nm,
            by simp [columnViolation, hc1, hc2.1, hc2.2]⟩
        · have hne : SqlNode.column name tbl ≠ SqlNode.column nm tb := by
            intro he
            obtain ⟨h1, h2⟩ := SqlNode.column.inj he
            subst h1; subst h2
            rcases hb with hb | hb
            · exact hc1 hb
            · exact hc2 hb
          obtain ⟨m, hm⟩ := ih ((List.mem_cons.mp hmem).resolve_left hne)
          refine ⟨m, ?_⟩
          by_cases htb : tb = ""
          · simp [columnViolation, hc1, htb, hm]
          · have hq : lowerStr tb ++ "." ++ lowerStr nm ∉ blocked :=
              fun hin => hc2 ⟨htb, hin⟩
            simp [columnViolation, hc1, htb, hq, hm]
    | func nm =>
      obtain ⟨m, hm⟩ := ih ((List.mem_cons.mp hmem).resolve_left (by simp))
      exact ⟨m, by simp [columnViolation, hm]⟩
    | table nm =>
      obtain ⟨m, hm⟩ := ih ((List.mem_cons.mp hmem).resolve_left (by simp))
      exact ⟨m, by simp [columnViolation, hm]⟩
    | literal t =>
      obtain ⟨m, hm⟩ := ih ((List.mem_cons.mp hmem).resolve_left (by simp))
      exact ⟨m, by simp [columnViolation, hm]⟩
    | other =>
      obtain ⟨m, hm⟩ := ih ((List.mem_cons.mp hmem).resolve_left (by simp))
      exact ⟨m, by simp [columnViolation, hm]⟩

theorem columnViolation_none (blocked : List String) (l : List SqlNode)
    (h : ∀ name tbl, SqlNode.column name tbl ∈ l →
      lowerStr name ∉ blocked ∧
      (tbl ≠ "" → lowerStr tbl ++ "." ++ lowerStr name ∉ blocked)) :
    columnViolation blocked l = none := by
  induction l with
  | nil => rfl
  | cons n rest ih =>
    have hrest : columnViolation blocked rest = none :=
      ih fun name tbl hm => h name tbl (List.mem_cons_of_mem n hm)
    cases n with
    | column nm tb =>
      obtain ⟨h1, h2⟩ := h nm tb (List.mem_cons_self _ _)
      by_cases htb : tb = ""
      · subst htb
        simp [columnViolation, h1, hrest]
      · simp [columnViolation, h1, h2 htb, hrest, htb]
    | func nm => simpa [columnViolation] using hrest
    | table nm => simpa [columnViolation] using hrest
    | literal t => simpa [columnViolation] using hrest
    | other => simpa [columnViolation] using hrest

/-- Claim C1's statement kinds, mapped to how the parser classifies
them: `INSERT, UPDATE, DELETE, CREATE, DROP, ALTER, GRANT, REVOKE`
are dedicated node classes, `TRUNCATE` and `COPY` have dedicated
classes as well (`TruncateTable`, `Copy`), and `VACUUM` (or a
`TRUNCATE`/`COPY` on an older parser) surfaces as a generic
`Command` whose command word is the keyword. -/
def claimForbiddenKind : Stmt → Bool
  | .insert _ | .update _ | .delete _ | .create _ | .drop _
  | .alter _ | .grant _ | .revoke _ | .truncateTable _ | .copy _ => true
  | .command this _ =>
    upperStr this = "TRUNCATE" || upperStr this = "VACUUM" || upperStr this = "COPY"
  | _ => false

theorem check_statement_type_forbidden (v : SQLValidator) (stmt : Stmt)
    (sql : String) (h : claimForbiddenKind stmt = true) :
    ∃ m, check_statement_type v stmt sql = .error (.security m) := by
  cases stmt with
  | command this body =>
    have hne : upperStr this ≠ "EXPLAIN" := by
      intro hexp
      have h2 : (decide (upperStr this = "TRUNCATE") ||
          decide (upperStr this = "VACUUM") ||
          decide (upperStr this = "COPY")) = true := h
      rw [hexp] at h2
      simp at h2
    exact ⟨"Command " ++ upperStr this ++ " is not allowed",
      by simp [check_statement_type, hne]⟩
  | select ns => simp [claimForbiddenKind] at h
  | union ns => simp [claimForbiddenKind] at h
  | subquery ns => simp [claimForbiddenKind] at h
  | withStmt ns => simp [claimForbiddenKind] at h
  | otherStmt k ns => simp [claimForbiddenKind] at h
  | insert ns => exact ⟨_, rfl⟩
  | update ns => exact ⟨_, rfl⟩
  | delete ns => exact ⟨_, rfl⟩
  | create ns => exact ⟨_, rfl⟩
  | drop ns => exact ⟨_, rfl⟩
  | alter ns => exact ⟨_, rfl⟩
  | grant ns => exact ⟨_, rfl⟩
  | revoke ns => exact ⟨_, rfl⟩
  | truncateTable ns => exact ⟨_, rfl⟩
  | copy ns => exact ⟨_, rfl⟩

/-- For a `Command` statement the three deny-list walks see only the
opaque `Literal` child, so they always pass. -/
theorem command_checks_ok (v : SQLValidator) (this body : String) :
    check_blocked_functions v (.command this body) = .ok () ∧
    check_blocked_tables v (.command this body) = .ok () ∧
    check_blocked_columns v (.command this body) = .ok () := by
  refine ⟨?_, ?_, ?_⟩
  · simp [check_blocked_functions, Stmt.walk, funcViolation]
  · unfold check_blocked_tables
    split
    · rfl
    · simp [Stmt.walk, tableViolation]
  · unfold check_blocked_columns
    split
    · rfl
    · simp [Stmt.walk, columnViolation]

/-! ### Claim theorems -/

/-- C1: for every input SQL that parses to a statement of kind INSERT,
UPDATE, DELETE, CREATE, DROP, ALTER, GRANT, REVOKE, TRUNCATE, VACUUM or
COPY, `validate_or_raise` raises `SecurityViolationError` and `validate`
returns `is_valid = false`; no statement of any of these kinds is
accepted. -/
theorem C1_forbidden_kinds_rejected (p : Parser) (v : SQLValidator)
    (sql : String) (stmt : Stmt) (hp : parse_one p sql = some stmt)
    (hk : claimForbiddenKind stmt = true) :
    ∃ m, validate_or_raise p v sql = .error (.security m) ∧
      validate p v sql = (false, some m) := by
  obtain ⟨rest, hm⟩ := parse_one_inv p sql stmt hp
  cases rest with
  | nil =>
    obtain ⟨m, hcst⟩ := check_statement_type_forbidden v stmt sql hk
    have heq := validate_or_raise_single p v sql stmt hm
    have herr : validate_or_raise p v sql = .error (.security m) := by
      rw [heq, hcst]; rfl
    exact ⟨m, herr, validate_of_error p v sql _ herr⟩
  | cons b bs =>
    have hws : wsOnly sql = false := parse_some_not_wsOnly p sql _ hm (by simp)
    have herr : validate_or_raise p v sql =
        .error (.security "Multiple SQL statements are not allowed") := by
      unfold validate_or_raise
      rw [hws]
      simp [hm]
    exact ⟨_, herr, validate_of_error p v sql _ herr⟩

/-- Witness for C1 at the concrete input `DELETE FROM users` (parsed by
sqlglot as an `exp.Delete` node). -/
theorem C1_forbidden_kinds_rejected_witness :
    ∃ m, validate_or_raise
        (constParser "DELETE FROM users" [.delete [.table "users"]] (by decide))
        ⟨[], [], [], .disabled⟩ "DELETE FROM users" = .error (.security m) ∧
      validate
        (constParser "DELETE FROM users" [.delete [.table "users"]] (by decide))
        ⟨[], [], [], .disabled⟩ "DELETE FROM users" = (false, some m) :=
  C1_forbidden_kinds_rejected _ _ _ (.delete [.table "users"])
    (by decide) (by decide)

theorem validate_or_raise_ok_parse (p : Parser) (v : SQLValidator) (sql : String)
    (h : validate_or_raise p v sql = .ok ()) :
    ∃ stmt, p.parseMulti sql = some [stmt] := by
  unfold validate_or_raise at h
  by_cases hws : wsOnly sql = true
  · rw [if_pos hws] at h; cases h
  · have hws' : wsOnly sql = false := by simpa using hws
    rw [hws'] at h
    simp only [Bool.false_eq_true, if_false] at h
    cases hm : p.parseMulti sql with
    | none => rw [hm] at h; cases h
    | some parsed =>
      rw [hm] at h
      cases parsed with
      | nil => simp [List.head?] at h
      | cons a rest =>
        cases rest with
        | nil => exact ⟨a, rfl⟩
        | cons b bs =>
          simp only [List.head?, List.length_cons, gt_iff_lt] at h
          rw [if_pos (by omega)] at h
          cases h

/-- C2 counterexample: under `EXPLAIN_ONLY`, the EXPLAIN statement
`EXPLAIN SELECT * FROM analyze_log` does not include the `ANALYZE`
option, yet the validator rejects it, because the code tests for the
substring `ANALYZE` in the upper-cased raw SQL
(`sql_validator.py:119-128`) and the table name `analyze_log` contains
it. -/
theorem C2_explain_only_counterexample :
    hasAnalyzeOption "EXPLAIN SELECT * FROM analyze_log" = false ∧
    validate
      (constParser "EXPLAIN SELECT * FROM analyze_log"
        [.command "EXPLAIN" "SELECT * FROM analyze_log"] (by decide))
      ⟨[], [], [], .explainOnly⟩ "EXPLAIN SELECT * FROM analyze_log" =
      (false, some "EXPLAIN ANALYZE is not allowed") := by
  exact ⟨by decide, by decide⟩

/-- C2 (amended): for every EXPLAIN statement, `DISABLED` rejects it;
`EXPLAIN_ONLY` accepts it exactly when the upper-cased raw text does not
contain the substring `ANALYZE` (an over-approximation of the `ANALYZE`
option that also hits identifiers containing the word); and
`EXPLAIN_ANALYZE` accepts it unconditionally. -/
theorem C2_explain_policy_amended (p : Parser) (v : SQLValidator)
    (sql cmd body : String) (hp : p.parseMulti sql = some [.command cmd body])
    (hex : upperStr cmd = "EXPLAIN") :
    validate_or_raise p v sql = .ok () ↔
      (v.explain_policy = .explainAnalyze ∨
       (v.explain_policy = .explainOnly ∧
        containsSubstr (upperStr sql) "ANALYZE" = false)) := by
  rw [validate_or_raise_single_ok_iff p v sql _ hp]
  obtain ⟨hf, ht, hc⟩ := command_checks_ok v cmd body
  constructor
  · rintro ⟨h1, -, -, -⟩
    cases hpol : v.explain_policy with
    | disabled =>
      exfalso
      simp [check_statement_type, hex, hpol] at h1
    | explainOnly =>
      by_cases hca : containsSubstr (upperStr sql) "ANALYZE" = true
      · exfalso
        simp [check_statement_type, hex, hpol, hca] at h1
      · exact Or.inr ⟨rfl, by simpa using hca⟩
    | explainAnalyze => exact Or.inl rfl
  · intro h
    refine ⟨?_, hf, ht, hc⟩
    rcases h with h | ⟨h, hca⟩
    · simp [check_statement_type, hex, h]
    · simp [check_statement_type, hex, h, hca]

/-- Witness for the amended C2: a plain `EXPLAIN SELECT 1` is accepted
under `EXPLAIN_ANALYZE`. -/
theorem C2_explain_policy_amended_witness :
    validate_or_raise
      (constParser "EXPLAIN SELECT 1" [.command "EXPLAIN" "SELECT 1"] (by decide))
      ⟨[], [], [], .explainAnalyze⟩ "EXPLAIN SELECT 1" = .ok () :=
  (C2_explain_policy_amended _ _ _ "EXPLAIN" "SELECT 1" (by decide)
    (by decide)).mpr (Or.inl rfl)

/-- C3 counterexample: `SELECT * FROM t;` contains a statement
separator outside string literals, but the parser yields a single
statement for it (a trailing `;` does not start a new statement), and
the validator accepts it: there is no raw-text semicolon check in
`validate_or_raise` (`sql_validator.py:82-89`). -/
theorem C3_semicolon_counterexample :
    semicolonOutsideStrings "SELECT * FROM t;" = true ∧
    validate miniParser ⟨[], [], [], .disabled⟩ "SELECT * FROM t;" =
      (true, none) := by
  exact ⟨by decide, by decide⟩

/-- C3 (amended): `validate_or_raise` fails on every empty or
whitespace-only input, and fails whenever the parser yields more than
one statement; the raw-text semicolon clause is dropped (a lone
trailing separator is accepted). -/
theorem C3_single_statement_amended :
    (∀ (p : Parser) (v : SQLValidator) (sql : String), wsOnly sql = true →
      validate_or_raise p v sql = .error (.parse "SQL query is empty")) ∧
    (∀ (p : Parser) (v : SQLValidator) (sql : String) (stmts : List Stmt),
      p.parseMulti sql = some stmts → stmts.length > 1 →
      validate_or_raise p v sql =
        .error (.security "Multiple SQL statements are not allowed")) := by
  constructor
  · intro p v sql h
    unfold validate_or_raise
    rw [if_pos h]
  · intro p v sql stmts hm hlen
    have hne : stmts ≠ [] := by
      intro he; subst he; simp at hlen
    have hws : wsOnly sql = false := parse_some_not_wsOnly p sql stmts hm hne
    unfold validate_or_raise
    rw [hws]
    simp only [Bool.false_eq_true, if_false, hm]
    cases stmts with
    | nil => simp at hlen
    | cons a rest =>
      simp only [List.head?]
      rw [if_pos hlen]

/-- Witness for the amended C3: a whitespace-only input fails with a
parse error, and a two-statement parse fails with the
multiple-statements violation. -/
theorem C3_single_statement_amended_witness :
    validate_or_raise (constParser "q" [.select []] (by decide))
      ⟨[], [], [], .disabled⟩ "  " = .error (.parse "SQL query is empty") ∧
    validate_or_raise
      (constParser "SELECT 1; SELECT 2" [.select [], .select []] (by decide))
      ⟨[], [], [], .disabled⟩ "SELECT 1; SELECT 2" =
      .error (.security "Multiple SQL statements are not allowed") :=
  ⟨C3_single_statement_amended.1 _ _ _ (by decide),
   C3_single_statement_amended.2 _ _ _ [.select [], .select []]
     (by decide) (by decide)⟩

theorem check_blocked_functions_ok_iff (v : SQLValidator) (stmt : Stmt) :
    check_blocked_functions v stmt = .ok () ↔
      funcViolation v.blocked_functions stmt.walk = none := by
  unfold check_blocked_functions
  cases h : funcViolation v.blocked_functions stmt.walk <;> simp

theorem validate_fst_false_of_not_all (p : Parser) (v : SQLValidator)
    (sql : String) (stmt : Stmt) (hp : parse_one p sql = some stmt)
    (hck : ¬(check_statement_type v stmt sql = .ok () ∧
             check_blocked_functions v stmt = .ok () ∧
             check_blocked_tables v stmt = .ok () ∧
             check_blocked_columns v stmt = .ok ())) :
    (validate p v sql).fst = false := by
  obtain ⟨rest, hm⟩ := parse_one_inv p sql stmt hp
  cases rest with
  | nil =>
    cases hb : (validate p v sql).fst with
    | false => rfl
    | true =>
      exact absurd ((validate_or_raise_single_ok_iff p v sql stmt hm).mp
        ((validate_fst_true_iff p v sql).mp hb)) hck
  | cons b bs =>
    cases hb : (validate p v sql).fst with
    | false => rfl
    | true =>
      exfalso
      obtain ⟨stmt', hm'⟩ := validate_or_raise_ok_parse p v sql
        ((validate_fst_true_iff p v sql).mp hb)
      rw [hm] at hm'
      simp at hm'

/-- C4: every deny-list comparison is case-insensitive: whenever a
configured blocked-function, blocked-table or blocked-column entry
matches a walked function, table or column reference up to ASCII case,
`validate` reports the SQL invalid, whatever the case used on either
side. -/
theorem C4_case_insensitive_deny_lists (cfg : SecurityConfig)
    (bt bc : List String) (pol : ExplainPolicy) (p : Parser) (sql : String)
    (stmt : Stmt) (entry name tblq : String)
    (hp : parse_one p sql = some stmt) :
    (entry ∈ cfg.blocked_functions → lowerStr name = lowerStr entry →
      SqlNode.func name ∈ stmt.walk →
      (validate p (mkSQLValidator cfg bt bc pol) sql).fst = false) ∧
    (entry ∈ bt → lowerStr name = lowerStr entry →
      SqlNode.table name ∈ stmt.walk →
      (validate p (mkSQLValidator cfg bt bc pol) sql).fst = false) ∧
    (entry ∈ bc → SqlNode.column name tblq ∈ stmt.walk →
      (lowerStr name = lowerStr entry ∨
        (tblq ≠ "" ∧ lowerStr tblq ++ "." ++ lowerStr name = lowerStr entry)) →
      (validate p (mkSQLValidator cfg bt bc pol) sql).fst = false) := by
  refine ⟨fun he hca hmem => ?_, fun he hca hmem => ?_, fun he hmem hca => ?_⟩
  · apply validate_fst_false_of_not_all p _ sql stmt hp
    rintro ⟨-, h2, -, -⟩
    have hb : lowerStr name ∈ (mkSQLValidator cfg bt bc pol).blocked_functions := by
      show lowerStr name ∈ cfg.blocked_functions.map lowerStr
      rw [hca]
      exact List.mem_map_of_mem lowerStr he
    obtain ⟨m, hv⟩ := funcViolation_of_mem _ stmt.walk name hmem hb
    rw [(check_blocked_functions_ok_iff _ stmt).mp h2] at hv
    cases hv
  · apply validate_fst_false_of_not_all p _ sql stmt hp
    rintro ⟨-, -, h3, -⟩
    have hb : lowerStr name ∈ (mkSQLValidator cfg bt bc pol).blocked_tables := by
      show lowerStr name ∈ bt.map lowerStr
      rw [hca]
      exact List.mem_map_of_mem lowerStr he
    obtain ⟨m, hv⟩ := tableViolation_of_mem _ stmt.walk name hmem hb
    unfold check_blocked_tables at h3
    rw [if_neg (by
      simp only [List.isEmpty_iff]
      intro hnil
      rw [hnil] at hb
      exact absurd hb (List.not_mem_nil _))] at h3
    rw [hv] at h3
    cases h3
  · apply validate_fst_false_of_not_all p _ sql stmt hp
    rintro ⟨-, -, -, h4⟩
    have hb : lowerStr name ∈ (mkSQLValidator cfg bt bc pol).blocked_columns ∨
        (tblq ≠ "" ∧ lowerStr tblq ++ "." ++ lowerStr name ∈
          (mkSQLValidator cfg bt bc pol).blocked_columns) := by
      rcases hca with hca | ⟨htb, hca⟩
      · exact Or.inl (by
          show lowerStr name ∈ bc.map lowerStr
          rw [hca]
          exact List.mem_map_of_mem lowerStr he)
      · exact Or.inr ⟨htb, by
          show lowerStr tblq ++ "." ++ lowerStr name ∈ bc.map lowerStr
          rw [hca]
          exact List.mem_map_of_mem lowerStr he⟩
    obtain ⟨m, hv⟩ := columnViolation_of_mem _ stmt.walk name tblq hmem hb
    unfold check_blocked_columns at h4
    by_cases hemp : (mkSQLValidator cfg bt bc pol).blocked_columns.isEmpty = true
    · exfalso
      rw [List.isEmpty_iff] at hemp
      rcases hb with hb | ⟨-, hb⟩ <;> rw [hemp] at hb <;>
        exact absurd hb (List.not_mem_nil _)
    · rw [if_neg hemp, hv] at h4
      cases h4

/-- Witness for C4 at a mixed-case function, table and column match. -/
theorem C4_case_insensitive_deny_lists_witness :
    (validate
      (constParser "SELECT PG_SLEEP(10) FROM Users"
        [.select [.func "PG_SLEEP", .table "Users", .column "PassWord" "Users"]]
        (by decide))
      (mkSQLValidator ⟨["pg_Sleep"]⟩ ["USERS"] ["password"] .disabled)
      "SELECT PG_SLEEP(10) FROM Users").fst = false :=
  (C4_case_insensitive_deny_lists ⟨["pg_Sleep"]⟩ ["USERS"] ["password"]
    .disabled _ _ (.select [.func "PG_SLEEP", .table "Users", .column "PassWord" "Users"])
    "pg_Sleep" "PG_SLEEP" "" (by decide)).1
    (by decide) (by decide) (by decide)

/-- C5: for every SQL the validator accepts,
`extract_tables (normalize_sql sql)` equals `extract_tables sql`, and
`extract_tables` returns a sorted list. -/
theorem C5_extract_tables_stable (v : SQLValidator) (sql : String)
    (h : (validate miniParser v sql).fst = true) :
    ∃ norm ts, normalize_sql sql = some norm ∧
      extract_tables norm = extract_tables sql ∧
      extract_tables sql = some ts ∧ List.Sorted (· ≤ ·) ts := by
  obtain ⟨stmt, hm⟩ := validate_or_raise_ok_parse miniParser v sql
    ((validate_fst_true_iff _ _ _).mp h)
  have hm' : miniParseMulti sql = some [stmt] := hm
  have hp1 : parse_one miniParser sql = some stmt := by
    unfold parse_one
    show (miniParseMulti sql).bind List.head? = some stmt
    rw [hm']
    rfl
  obtain ⟨ts, hsel, hne, hwf⟩ := miniParse_inv sql stmt hm
  have hrt : miniParseMulti (renderStmt stmt) = some [stmt] := by
    rw [hsel]
    exact miniParse_render ts hne hwf
  have hp2 : parse_one miniParser (renderStmt stmt) = some stmt := by
    unfold parse_one
    show (miniParseMulti (renderStmt stmt)).bind List.head? = some stmt
    rw [hrt]
    rfl
  refine ⟨renderStmt stmt,
    List.insertionSort (fun a b : String => a ≤ b)
      ((stmt.walk.filterMap fun n =>
        match n with
        | .table nm => some nm
        | _ => none).dedup), ?_, ?_, ?_, ?_⟩
  · unfold normalize_sql
    rw [hp1]
    rfl
  · unfold extract_tables
    rw [hp1, hp2]
  · unfold extract_tables
    rw [hp1]
    rfl
  · exact List.sorted_insertionSort _ _

/-- Witness for C5 at `SELECT * FROM b, a, b`, which the validator
accepts. -/
theorem C5_extract_tables_stable_witness :
    (validate miniParser ⟨[], [], [], .disabled⟩
      "SELECT * FROM b, a, b").fst = true ∧
    ∃ norm ts, normalize_sql "SELECT * FROM b, a, b" = some norm ∧
      extract_tables norm = extract_tables "SELECT * FROM b, a, b" ∧
      extract_tables "SELECT * FROM b, a, b" = some ts ∧
      List.Sorted (· ≤ ·) ts :=
  ⟨by decide, C5_extract_tables_stable ⟨[], [], [], .disabled⟩ _ (by decide)⟩

/-- C6: a statement with a column reference whose bare lower-cased name
or lower-cased `table.column` form lies in the configured
`blocked_columns` is rejected, and a statement with no such reference
passes the column check. -/
theorem C6_blocked_columns (cfg : SecurityConfig) (bt bc : List String)
    (pol : ExplainPolicy) :
    (∀ (p : Parser) (sql : String) (stmt : Stmt) (name tbl : String),
      parse_one p sql = some stmt →
      SqlNode.column name tbl ∈ stmt.walk →
      (lowerStr name ∈ bc.map lowerStr ∨
        (tbl ≠ "" ∧ lowerStr tbl ++ "." ++ lowerStr name ∈ bc.map lowerStr)) →
      (validate p (mkSQLValidator cfg bt bc pol) sql).fst = false) ∧
    (∀ stmt : Stmt,
      (∀ name tbl, SqlNode.column name tbl ∈ stmt.walk →
        lowerStr name ∉ bc.map lowerStr ∧
        (tbl ≠ "" → lowerStr tbl ++ "." ++ lowerStr name ∉ bc.map lowerStr)) →
      check_blocked_columns (mkSQLValidator cfg bt bc pol) stmt = .ok ()) := by
  constructor
  · intro p sql stmt name tbl hp hmem hca
    apply validate_fst_false_of_not_all p _ sql stmt hp
    rintro ⟨-, -, -, h4⟩
    obtain ⟨m, hv⟩ := columnViolation_of_mem (bc.map lowerStr) stmt.walk
      name tbl hmem hca
    unfold check_blocked_columns at h4
    by_cases hemp : (mkSQLValidator cfg bt bc pol).blocked_columns.isEmpty = true
    · exfalso
      rw [List.isEmpty_iff] at hemp
      have hemp' : bc.map lowerStr = [] := hemp
      rcases hca with hb | ⟨-, hb⟩ <;> rw [hemp'] at hb <;>
        exact absurd hb (List.not_mem_nil _)
    · rw [if_neg hemp] at h4
      have hv' : columnViolation (mkSQLValidator cfg bt bc pol).blocked_columns
          stmt.walk = some m := hv
      rw [hv'] at h4
      cases h4
  · intro stmt hno
    unfold check_blocked_columns
    split
    · rfl
    · have h := columnViolation_none
        ((mkSQLValidator cfg bt bc pol).blocked_columns) stmt.walk hno
      rw [h]

/-- Witness for C6: `users.ssn` is rejected through its qualified form,
and a statement mentioning only `users.name` passes the column check. -/
theorem C6_blocked_columns_witness :
    (validate
      (constParser "SELECT Users.SSN FROM users"
        [.select [.table "users", .column "SSN" "Users"]] (by decide))
      (mkSQLValidator ⟨[]⟩ [] ["users.ssn"] .disabled)
      "SELECT Users.SSN FROM users").fst = false ∧
    check_blocked_columns (mkSQLValidator ⟨[]⟩ [] ["users.ssn"] .disabled)
      (.select [.table "users", .column "name" "users"]) = .ok () :=
  ⟨(C6_blocked_columns ⟨[]⟩ [] ["users.ssn"] .disabled).1 _ _
      (.select [.table "users", .column "SSN" "Users"]) "SSN" "Users"
      (by decide) (by decide) (by decide),
   (C6_blocked_columns ⟨[]⟩ [] ["users.ssn"] .disabled).2 _ (by
      intro name tbl hmem
      simp only [Stmt.walk, List.mem_cons, List.not_mem_nil, or_false] at hmem
      rcases hmem with h | h
      · exact absurd h (by simp)
      · obtain ⟨h1, h2⟩ := SqlNode.column.inj h
        subst h1
        subst h2
        exact ⟨by decide, fun _ => by decide⟩)⟩

/-- C7: the host tool `query` answers `SERVER_NOT_INITIALIZED` before
the orchestrator exists and `INVALID_PARAMETER` for a `return_type`
other than `sql`/`result`, in both cases without entering the request
scope (so no orchestrator call is made). -/
theorem C7_guard_responses
    (run : String → Option String → String → Except String RespDict)
    (question : String) (database : Option String) (return_type : String) :
    ((queryTool none run question database return_type).1.success = false ∧
     (queryTool none run question database return_type).1.error.map
       ErrorObj.code = some "SERVER_NOT_INITIALIZED" ∧
     (queryTool none run question database return_type).2 = false) ∧
    (return_type ≠ "sql" → return_type ≠ "result" →
     (queryTool (some ()) run question database return_type).1.success = false ∧
     (queryTool (some ()) run question database return_type).1.error.map
       ErrorObj.code = some "INVALID_PARAMETER" ∧
     (queryTool (some ()) run question database return_type).2 = false) := by
  constructor
  · exact ⟨rfl, rfl, rfl⟩
  · intro h1 h2
    unfold queryTool
    rw [if_pos ⟨h1, h2⟩]
    exact ⟨rfl, rfl, rfl⟩

/-- Witness for C7 with a failing oracle and `return_type = "table"`. -/
theorem C7_guard_responses_witness :
    ((queryTool none (fun _ _ _ => .error "boom") "q" none "result").1.success =
        false ∧
     (queryTool none (fun _ _ _ => .error "boom") "q" none "result").1.error.map
       ErrorObj.code = some "SERVER_NOT_INITIALIZED" ∧
     (queryTool none (fun _ _ _ => .error "boom") "q" none "result").2 = false) ∧
    ((queryTool (some ()) (fun _ _ _ => .error "boom") "q" none "table").1.success =
        false ∧
     (queryTool (some ()) (fun _ _ _ => .error "boom") "q" none "table").1.error.map
       ErrorObj.code = some "INVALID_PARAMETER" ∧
     (queryTool (some ()) (fun _ _ _ => .error "boom") "q" none "table").2 = false) :=
  ⟨(C7_guard_responses _ "q" none "result").1,
   (C7_guard_responses _ "q" none "table").2 (by decide) (by decide)⟩

/-- C8: the tool never propagates an exception from the request scope:
whenever the scope body raises, the returned dict has `success = false`
and a populated error object (code, message and details all present). -/
theorem C8_never_raises
    (run : String → Option String → String → Except String RespDict)
    (question : String) (database : Option String) (return_type e : String)
    (hrt : return_type = "sql" ∨ return_type = "result")
    (hrun : run question database return_type = .error e) :
    (queryTool (some ()) run question database return_type).1.success = false ∧
    ∃ eo, (queryTool (some ()) run question database return_type).1.error =
        some eo ∧
      eo.code = "INVALID_REQUEST" ∧
      eo.message = "Invalid request parameters: " ++ e ∧
      eo.details = some [("error", e)] := by
  unfold queryTool
  have hcond : ¬(return_type ≠ "sql" ∧ return_type ≠ "result") := by
    rcases hrt with h | h <;> subst h <;> simp
  rw [if_neg hcond, hrun]
  exact ⟨rfl, _, rfl, rfl, rfl, rfl⟩

/-- Witness for C8 with an oracle that raises. -/
theorem C8_never_raises_witness :
    (queryTool (some ()) (fun _ _ _ => .error "boom") "q" none "result").1.success =
        false ∧
    ∃ eo, (queryTool (some ()) (fun _ _ _ => .error "boom") "q" none
        "result").1.error = some eo ∧
      eo.code = "INVALID_REQUEST" ∧
      eo.message = "Invalid request parameters: " ++ "boom" ∧
      eo.details = some [("error", "boom")] :=
  C8_never_raises _ "q" none "result" "boom" (Or.inr rfl) rfl

/-- The environment of the C9 counterexample: `DATABASE2_NAME` is set,
but to the empty string. -/
def env0 : String → Option String :=
  fun k => if k = "DATABASE2_NAME" then some "" else none

/-- C9 counterexample: with `DATABASE2_NAME` set to the empty string the
variable is set, but `if os.getenv("DATABASE2_NAME"):`
(`server.py:157`) is falsy, so only the primary pool is registered —
against the claimed `if and only if the environment variable
DATABASE2_NAME is set`. -/
theorem C9_second_pool_counterexample :
    (env0 "DATABASE2_NAME").isSome = true ∧
    (lifespanPools env0).length = 1 := by
  exact ⟨by decide, by decide⟩

/-- C9 (amended): a second registry entry exists exactly when
`DATABASE2_NAME` is set to a nonempty value different from the primary
database name (a matching name overwrites the primary's dict entry);
each unset `DATABASE2_*` connection field falls back to the primary's
value; with `DATABASE2_NAME` unset or empty exactly the primary pool is
registered. -/
theorem C9_second_pool_amended (env : String → Option String) :
    (envTruthy env "DATABASE2_NAME" = false →
      lifespanPools env = [((db1Config env).name, db1Config env)]) ∧
    (envTruthy env "DATABASE2_NAME" = true →
      ((db2Config env).name ≠ (db1Config env).name →
        lifespanPools env = [((db1Config env).name, db1Config env),
          ((db2Config env).name, db2Config env)]) ∧
      ((db2Config env).name = (db1Config env).name →
        lifespanPools env = [((db2Config env).name, db2Config env)]) ∧
      (env "DATABASE2_HOST" = none →
        (db2Config env).host = (db1Config env).host) ∧
      (env "DATABASE2_PORT" = none →
        (db2Config env).port = (db1Config env).port) ∧
      (env "DATABASE2_USER" = none →
        (db2Config env).user = (db1Config env).user) ∧
      (env "DATABASE2_PASSWORD" = none →
        (db2Config env).password = (db1Config env).password)) := by
  constructor
  · intro h
    unfold lifespanPools
    rw [h]
    simp [dictInsert]
  · intro h
    refine ⟨?_, ?_, ?_, ?_, ?_, ?_⟩
    · intro hne
      unfold lifespanPools
      rw [h]
      simp only [if_true]
      simp [dictInsert, hne, Ne.symm hne]
    · intro heq
      unfold lifespanPools
      rw [h]
      simp only [if_true]
      simp [dictInsert, heq]
    · intro hu
      simp [db2Config, db1Config, getenvD, hu]
    · intro hu
      simp [db2Config, db1Config, getenvD, hu]
    · intro hu
      simp [db2Config, db1Config, getenvD, hu]
    · intro hu
      simp [db2Config, db1Config, getenvD, hu]

/-- The environment of the C9 witness: a distinct second database with
no `DATABASE2_HOST`. -/
def env1 : String → Option String :=
  fun k => if k = "DATABASE2_NAME" then some "analytics" else none

/-- Witness for the amended C9: both pools are registered and the second
inherits the primary host. -/
theorem C9_second_pool_amended_witness :
    lifespanPools env1 = [((db1Config env1).name, db1Config env1),
      ((db2Config env1).name, db2Config env1)] ∧
    (db2Config env1).host = (db1Config env1).host :=
  ⟨((C9_second_pool_amended env1).2 (by decide)).1 (by decide),
   ((C9_second_pool_amended env1).2 (by decide)).2.2.1 (by decide)⟩

/-- C10: a permitted EXPLAIN is accepted without any inspection of the
wrapped query: the statement-kind check returns early on the
`EXPLAIN` command node, whose walk holds only the opaque literal body,
so `EXPLAIN DELETE FROM users` passes with `users` in `blocked_tables`
under `EXPLAIN_ANALYZE`, and `EXPLAIN SELECT secret FROM users` passes
with `secret`/`users`/`pg_sleep` all blocked under `EXPLAIN_ONLY`. -/
theorem C10_explain_bypasses_inner_checks :
    validate
      (constParser "EXPLAIN DELETE FROM users"
        [.command "EXPLAIN" "DELETE FROM users"] (by decide))
      (mkSQLValidator ⟨["pg_sleep"]⟩ ["users"] ["secret"] .explainAnalyze)
      "EXPLAIN DELETE FROM users" = (true, none) ∧
    validate
      (constParser "EXPLAIN SELECT secret FROM users"
        [.command "EXPLAIN" "SELECT secret FROM users"] (by decide))
      (mkSQLValidator ⟨["pg_sleep"]⟩ ["users"] ["secret"] .explainOnly)
      "EXPLAIN SELECT secret FROM users" = (true, none) ∧
    (Stmt.command "EXPLAIN" "DELETE FROM users").walk =
      [.literal "DELETE FROM users"] := by
  exact ⟨by decide, by decide, rfl⟩
